import Mathlib

/-!
Shallow embedding of the Mille Bornes AI decision engine
(src/mille/matthewgai.py, class MatthewgAI) and proofs about it.

Modelling conventions:
- Card identifiers are natural numbers (the Python code treats cards as
  opaque integer identifiers supplied by the card catalog).
- Python floats are modelled as exact rationals (ℚ).  All float literals
  appearing in the source (0.75, 0.001, 0.6, 1.5, 0.25) are decimal
  values represented exactly.
- Python `/` (with `from __future__ import division`) is ℚ division.
  Python raises ZeroDivisionError on a zero denominator; this embedding
  uses the Lean convention q / 0 = 0, so states whose Python behaviour
  is an exception are given a harmless total value.  No theorem below
  depends on such a state.
- Failures that the Python code can hit by dictionary / attribute lookup
  (looking up an unknown team number) are modelled with Option.
- The per-turn memoization cache (`cacheComputationForTurn`) caches pure
  recomputation only and is semantically transparent; functions are
  modelled directly.
- The card catalog (`mille.cards.Cards`), the deck composition table
  (`mille.deck.Deck.composition`) and the points-to-win constant
  (`mille.game.Game.pointsToWin`) are collaborators of this class whose
  code is not part of the analysed source; they are modelled abstractly
  from the spec (sections 3 and 6) as the `Catalog` structure and the
  `Env.pointsToWin` field.
- The Monte Carlo simulator's randomness (`random.shuffle`) is injected
  as `Env.rng`, a function producing, per playout index, the shuffled
  deck in draw order (the spec's design notes call for an injectable
  randomness source).
-/

/-- Card types, section 3 of the spec: every card has a fixed type in
MILEAGE, REMEDY, SAFETY, ATTACK.  The catalog's dynamic card-kind
dispatch becomes a closed inductive. -/
inductive CardType where
  | MILEAGE
  | REMEDY
  | SAFETY
  | ATTACK
deriving DecidableEq

/-- Modelled from the spec: the card catalog collaborator
(`mille.cards.Cards`) and the deck composition table
(`mille.deck.Deck.composition`), which are not part of the analysed
source.  Spec section 3: a card is an identifier with a fixed type;
mileage cards carry a distance value; each attack has exactly one curing
remedy and one blocking safety; the deck composition maps identifiers to
canonical counts.  `compositionKeys` is the (finite) key set of the
composition dictionary. -/
structure Catalog where
  cardToType : ℕ → CardType
  cardToMileage : ℕ → ℤ
  attackToSafety : ℕ → ℕ
  attackToRemedy : ℕ → ℕ
  remedyToSafety : ℕ → ℕ
  remedyToAttack : ℕ → ℕ
  REMEDY_GO : ℕ
  REMEDY_END_OF_LIMIT : ℕ
  ATTACK_STOP : ℕ
  ATTACK_SPEED_LIMIT : ℕ
  ATTACKS : List ℕ
  MILEAGE_CARDS : List ℕ
  compositionKeys : List ℕ
  composition : ℕ → ℕ

namespace Constants

/-- class Constants: REMEDY_DISCARD_BOOST = 1.5. -/
def REMEDY_DISCARD_BOOST : ℚ := 3 / 2

/-- class Constants: DISCARD_MOVE_VALUE_PENALTY = 0.001. -/
def DISCARD_MOVE_VALUE_PENALTY : ℚ := 1 / 1000

/-- class Constants: SAFETY_HORDE_FACTOR = 0.6. -/
def SAFETY_HORDE_FACTOR : ℚ := 3 / 5

/-- class Constants: ATTACK_QUALITY_MOD_STOP = 0.25. -/
def ATTACK_QUALITY_MOD_STOP : ℚ := 1 / 4

/-- class Constants: ATTACK_QUALITY_MOD_LIMIT = 0.25. -/
def ATTACK_QUALITY_MOD_LIMIT : ℚ := 1 / 4

/-- class Constants: DUPE_PENALTY_FACTOR = 3. -/
def DUPE_PENALTY_FACTOR : ℚ := 3

end Constants

/-- Move kinds (`mille.move.Move.PLAY` / `Move.DISCARD`), spec section 3. -/
inductive MoveType where
  | PLAY
  | DISCARD
deriving DecidableEq

/-- A candidate action, spec section 3: kind, card, and (for attacks) the
target team number. -/
structure Move where
  type : MoveType
  card : ℕ
  target : ℕ
deriving DecidableEq

/-- Team aggregate, spec section 3. -/
structure Team where
  number : ℕ
  playerNumbers : List ℕ
  mileage : ℤ
  moving : Bool
  needRemedy : Option ℕ
  speedLimit : Bool
  twoHundredsPlayed : ℤ
  safeties : List ℕ
  totalScore : ℤ
deriving DecidableEq

/-- GameState snapshot, spec section 3. -/
structure GameState where
  us : Team
  opponents : List Team
  validMoves : List Move
  target : ℤ
  cardsLeft : ℤ
  debug : Bool
deriving DecidableEq

/-- External collaborators bundle: the catalog, `Game.pointsToWin`
(modelled from the spec as an abstract constant), and the injected
randomness source for the Monte Carlo simulator. -/
structure Env where
  cat : Catalog
  pointsToWin : ℤ
  rng : ℕ → List ℕ → List ℕ

/-- Modelled from the spec: `GameState.teamNumberToTeam` resolves a team
number to the team carrying that number among the decider's team and the
opponents (spec section 3: a snapshot is the decider's own Team plus the
list of opponent Teams).  Lookup of an absent number is a failure
(Option). -/
def teamNumberToTeam (gs : GameState) (number : ℕ) : Option Team :=
  (gs.us :: gs.opponents).find? (fun t => t.number == number)

/-- Long-lived tracker state of MatthewgAI: the unseen-card counts
dictionary, its running total, and the per-player suspicious
remedy-discard counts (`interestingRemedyDiscardsByPlayer`).
The counts are integers: the Python code decrements them without any
lower bound. -/
structure AIState where
  cardsUnseen : ℕ → ℤ
  numCardsUnseen : ℤ
  interestingRemedyDiscardsByPlayer : ℕ → ℕ → ℕ

/-- MatthewgAI.resetCardCount (matthewgai.py lines 80-96): reinitialize
the unseen counts from the deck composition, the total as their sum, and
zero the remedy-discard history. -/
def resetCardCount (cat : Catalog) : AIState where
  cardsUnseen := fun card => (cat.composition card : ℤ)
  numCardsUnseen := (cat.compositionKeys.map (fun card => (cat.composition card : ℤ))).sum
  interestingRemedyDiscardsByPlayer := fun _ _ => 0

/-- MatthewgAI.cardSeen (lines 98-103): decrement the card's unseen
count and the aggregate total.  There is no guard: the Python code
performs `self.cardsUnseen[card] -= 1` unconditionally. -/
def cardSeen (s : AIState) (card : ℕ) : AIState where
  cardsUnseen := Function.update s.cardsUnseen card (s.cardsUnseen card - 1)
  numCardsUnseen := s.numCardsUnseen - 1
  interestingRemedyDiscardsByPlayer := s.interestingRemedyDiscardsByPlayer

/-- MatthewgAI.playerPlayed (lines 112-118): observe the card; for a
non-GO remedy, a discard bumps that player's suspicion count and a play
resets it. -/
def playerPlayed (cat : Catalog) (s : AIState) (player : ℕ) (move : Move) : AIState :=
  let s1 := cardSeen s move.card
  if cat.cardToType move.card = CardType.REMEDY ∧ move.card ≠ cat.REMEDY_GO then
    match move.type with
    | MoveType.DISCARD =>
        let bumped :=
          Function.update (s1.interestingRemedyDiscardsByPlayer player) move.card
            (s1.interestingRemedyDiscardsByPlayer player move.card + 1)
        { s1 with interestingRemedyDiscardsByPlayer :=
                    Function.update s1.interestingRemedyDiscardsByPlayer player bumped }
    | MoveType.PLAY =>
        let cleared :=
          Function.update (s1.interestingRemedyDiscardsByPlayer player) move.card 0
        { s1 with interestingRemedyDiscardsByPlayer :=
                    Function.update s1.interestingRemedyDiscardsByPlayer player cleared }
  else s1

/-- MatthewgAI.cardDrawn (lines 120-121). -/
def cardDrawn (s : AIState) (card : ℕ) : AIState :=
  cardSeen s card

/-- MatthewgAI.handEnded (lines 123-124): reset the tracker (the score
summary argument is unused by the source). -/
def handEnded (cat : Catalog) (_ : AIState) : AIState :=
  resetCardCount cat

/-- One externally driven observation event: the three entry points that
mutate the tracker (cardDrawn, playerPlayed, handEnded). -/
inductive Obs where
  | drawn (card : ℕ)
  | played (player : ℕ) (move : Move)
  | ended
deriving DecidableEq

/-- Apply one observation event to the tracker state. -/
def applyObs (cat : Catalog) (s : AIState) : Obs → AIState
  | Obs.drawn card => cardDrawn s card
  | Obs.played player move => playerPlayed cat s player move
  | Obs.ended => handEnded cat s

/-- Tracker state reached from construction (which calls resetCardCount)
after a sequence of observation events. -/
def runObs (cat : Catalog) (events : List Obs) : AIState :=
  events.foldl (applyObs cat) (resetCardCount cat)

/-- The card an observation event feeds to cardSeen, if any. -/
def obsCard : Obs → Option ℕ
  | Obs.drawn card => some card
  | Obs.played _ move => some move.card
  | Obs.ended => none

/-- A trace is consistent with the tracker's model when every observed
card still has at least one unseen copy expected at the moment it is
observed (the spec's correct external reporting). -/
def validTrace (cat : Catalog) : AIState → List Obs → Bool
  | _, [] => true
  | s, e :: rest =>
    (match obsCard e with
     | some card => decide (1 ≤ s.cardsUnseen card)
     | none => true) && validTrace cat (applyObs cat s e) rest

/-- MatthewgAI.percentOfCardsRemaining (lines 499-504): sum of the
requested cards' unseen counts over max(total unseen, that sum, 1). -/
def percentOfCardsRemaining (s : AIState) (cards : List ℕ) : ℚ :=
  let cardCount : ℤ := (cards.map s.cardsUnseen).sum
  (cardCount : ℚ) / ((max (max s.numCardsUnseen cardCount) 1 : ℤ) : ℚ)

/-- MatthewgAI.chanceOpponentHasProtection (lines 126-155): 1.0 once the
matching safety is on the table, otherwise the unseen percentage of
safety+remedy boosted once per recorded suspicious discard of the remedy
by any player of the team. -/
def chanceOpponentHasProtection (env : Env) (s : AIState) (team : Team) (attack : ℕ) : ℚ :=
  let safety := env.cat.attackToSafety attack
  let remedy := env.cat.attackToRemedy attack
  if safety ∈ team.safeties then 1
  else
    team.playerNumbers.foldl
      (fun odds player =>
        odds * Constants.REMEDY_DISCARD_BOOST ^ s.interestingRemedyDiscardsByPlayer player remedy)
      (percentOfCardsRemaining s [safety, remedy])

/-- Duplicate coefficient computed in MatthewgAI.cardValue
(lines 294-305): with d duplicates in hand, 1 - (1 - 1/d) / 3. -/
def dupeCoefficient (numDuplicates : ℕ) : ℚ :=
  let dupeFrac : ℚ := 1 / numDuplicates
  1 - (1 - dupeFrac) / Constants.DUPE_PENALTY_FACTOR

/-- MatthewgAI.valueOfPoints (lines 375-384). -/
def valueOfPoints (env : Env) (points : ℚ) (team : Team) : ℚ :=
  let gamePointsRemaining : ℤ := max (env.pointsToWin - team.totalScore) 0
  if 0 < gamePointsRemaining then min 1 (points / (gamePointsRemaining : ℚ)) else 1 / 2

/-- MatthewgAI.expectedTurnPoints (lines 494-497): a stub returning 75. -/
def expectedTurnPoints (_ : Team) : ℤ :=
  75

/-- MatthewgAI.mileageCardValue (lines 253-271). -/
def mileageCardValue (env : Env) (gs : GameState) (card : ℕ) : ℚ :=
  let tripMileageRemaining : ℤ := 1000 - gs.us.mileage
  let tripRemainingMileagePercentConsumed : ℚ :=
    (env.cat.cardToMileage card : ℚ) / (tripMileageRemaining : ℚ)
  tripRemainingMileagePercentConsumed * valueOfPoints env (400 + 200) gs.us

/-- MatthewgAI.maxTripPctDone (lines 595-601): max team mileage over
1000.0. -/
def maxTripPctDone (gs : GameState) : ℚ :=
  (((gs.opponents.map Team.mileage).foldl max gs.us.mileage : ℤ) : ℚ) / 1000

/-- MatthewgAI.deckExhaustionTurnsLeft (lines 618-625):
ceil(cardsLeft / total player count). -/
def deckExhaustionTurnsLeft (gs : GameState) : ℚ :=
  let playerCount : ℕ := (((gs.us :: gs.opponents).map (fun t => t.playerNumbers.length)).sum)
  ((⌈(gs.cardsLeft : ℚ) / (playerCount : ℚ)⌉ : ℤ) : ℚ)

/-- MatthewgAI.useMonteCarloSimulation (lines 627-631). -/
def useMonteCarloSimulation (gs : GameState) : Bool :=
  decide (maxTripPctDone gs > 3 / 4) || decide (deckExhaustionTurnsLeft gs < 10)

/-- List comprehension that can fail (models a Python loop that raises
on the first failing element). -/
def mapOption {α β : Type} (f : α → Option β) : List α → Option (List β)
  | [] => some []
  | a :: l =>
    match f a, mapOption f l with
    | some b, some bs => some (b :: bs)
    | _, _ => none

/-- Per-team dictionaries of monteCarloMileageSimulation (lines 512-515),
keyed by team number; a later team with the same number overwrites an
earlier one, as in a Python dict comprehension. -/
def teamsDict {α : Type} (teams : List Team) (f : Team → α) (d : α) : ℕ → α :=
  teams.foldl (fun acc t => Function.update acc t.number (f t)) (fun _ => d)

/-- Local (per-team-iteration) mutable variables of the simulation's
player loop. -/
structure TeamVars where
  needMileage : ℤ
  needRemedy : Option ℕ
  moving : Bool
  twoHundredsPlayed : ℤ

/-- Whole-playout mutable state of monteCarloMileageSimulation.  A deck
of `none` models the Python `deck = None` sentinel. -/
structure SimSt where
  needMileage : ℕ → ℤ
  moving : ℕ → Bool
  needRemedy : ℕ → Option ℕ
  twoHundredsPlayed : ℕ → ℤ
  tripCompletedBy : Option ℕ
  deck : Option (List ℕ)
  turnsElapsed : ℕ

/-- Python falsiness of the deck value: None or empty. -/
def deckFalsy : Option (List ℕ) → Bool
  | none => true
  | some d => d.isEmpty

/-- Effect of one drawn card on the local team variables
(lines 548-567).  The Bool is true when the Python code hits `continue`,
which skips the trip-completion check. -/
def simCardEffect (cat : Catalog) (dictNeedRemedy teamNeedSafety : Option ℕ)
    (v : TeamVars) (card : ℕ) : TeamVars × Bool :=
  let cardType := cat.cardToType card
  if cardType ≠ CardType.MILEAGE then
    if card = cat.REMEDY_GO then
      let v1 : TeamVars := { v with moving := true }
      if v.needRemedy = some cat.REMEDY_GO then ({ v1 with needRemedy := none }, false)
      else (v1, false)
    else if v.needRemedy.isSome then
      -- Line 556 compares against the dict entry needRemedy[teamNo], not
      -- the local variable.
      if (cardType = CardType.SAFETY ∧ teamNeedSafety = some card) ∨
         (cardType = CardType.REMEDY ∧ dictNeedRemedy = some card) then
        ({ v with needRemedy := none }, false)
      else (v, false)
    else (v, false)
  else
    let mileage := cat.cardToMileage card
    if mileage = 200 ∧ v.twoHundredsPlayed ≥ 2 then (v, true)
    else if mileage > v.needMileage then (v, true)
    else if mileage = 200 then
      ({ v with twoHundredsPlayed := v.twoHundredsPlayed + 1,
                needMileage := v.needMileage - mileage }, false)
    else ({ v with needMileage := v.needMileage - mileage }, false)

/-- Player loop of one team's turn (lines 540-571).  Returns the updated
tripCompletedBy, deck and team variables.  Cards are drawn from the head
of the modelled deck: `Env.rng` supplies the shuffled deck in draw
order. -/
def simPlayersLoop (cat : Catalog) (dictNeedRemedy teamNeedSafety : Option ℕ) :
    List ℕ → Option ℕ → Option (List ℕ) → TeamVars → Option ℕ × Option (List ℕ) × TeamVars
  | [], tcb, deck, v => (tcb, deck, v)
  | playerNum :: rest, tcb, deck, v =>
    if tcb = some playerNum then
      -- Line 541-543: the completing player's next turn sets deck = None.
      (tcb, none, v)
    else
      match deck with
      | none => (tcb, none, v)
      | some [] => (tcb, some [], v)
      | some (card :: deckRest) =>
        let out := simCardEffect cat dictNeedRemedy teamNeedSafety v card
        if out.2 then
          simPlayersLoop cat dictNeedRemedy teamNeedSafety rest tcb (some deckRest) out.1
        else if out.1.needMileage = 0 ∧ out.1.moving = true ∧ out.1.needRemedy = none then
          (some playerNum, some deckRest, out.1)
        else
          simPlayersLoop cat dictNeedRemedy teamNeedSafety rest tcb (some deckRest) out.1

/-- Team loop of one simulated round (lines 526-576). -/
def simTeamsLoop (cat : Catalog) : List Team → SimSt → SimSt
  | [], st => st
  | team :: rest, st =>
    if deckFalsy st.deck then st
    else
      let teamNo := team.number
      let v : TeamVars :=
        { needMileage := st.needMileage teamNo
          needRemedy := st.needRemedy teamNo
          moving := st.moving teamNo
          twoHundredsPlayed := st.twoHundredsPlayed teamNo }
      let teamNeedSafety := (st.needRemedy teamNo).map cat.remedyToSafety
      let out := simPlayersLoop cat (st.needRemedy teamNo) teamNeedSafety
        team.playerNumbers st.tripCompletedBy st.deck v
      let st1 : SimSt :=
        { needMileage := Function.update st.needMileage teamNo out.2.2.needMileage
          moving := Function.update st.moving teamNo out.2.2.moving
          needRemedy := Function.update st.needRemedy teamNo out.2.2.needRemedy
          twoHundredsPlayed := Function.update st.twoHundredsPlayed teamNo out.2.2.twoHundredsPlayed
          tripCompletedBy := out.1
          deck := out.2.1
          turnsElapsed := st.turnsElapsed }
      simTeamsLoop cat rest st1

/-- While loop of one playout (lines 525-578), with fuel.  Every
iteration whose deck is non-falsy either draws a card or ends the
playout whenever some team has a player, so a fuel of deck length + 1 is
never exhausted in those cases (a game with no players makes the Python
loop spin forever; the model stops when the fuel runs out). -/
def simWhileLoop (cat : Catalog) (teams : List Team) : ℕ → SimSt → SimSt
  | 0, st => st
  | fuel + 1, st =>
    if deckFalsy st.deck then st
    else
      let st1 := simTeamsLoop cat teams st
      simWhileLoop cat teams fuel { st1 with turnsElapsed := st1.turnsElapsed + 1 }

/-- Deck built from the unseen-card counts (lines 518-521), one entry per
still-possibly-available copy. -/
def buildUnseenDeck (cat : Catalog) (s : AIState) : List ℕ :=
  (cat.compositionKeys.map (fun card => List.replicate (s.cardsUnseen card).toNat card)).flatten

/-- One playout of monteCarloMileageSimulation (lines 511-592), including
the result-row assembly of lines 580-591.  NB line 512 initializes the
`needMileage` dict from team.mileage, exactly as the source does. -/
def monteCarloOnePlayout (env : Env) (s : AIState) (gs : GameState) (playoutIdx : ℕ) :
    Option (List ℤ) :=
  let teams := gs.us :: gs.opponents
  let needMileage0 := teamsDict teams Team.mileage 0
  let moving0 := teamsDict teams Team.moving false
  let needRemedy0 := teamsDict teams Team.needRemedy none
  let twoHundreds0 := teamsDict teams Team.twoHundredsPlayed 0
  let deck := env.rng playoutIdx (buildUnseenDeck env.cat s)
  let st0 : SimSt :=
    { needMileage := needMileage0
      moving := moving0
      needRemedy := needRemedy0
      twoHundredsPlayed := twoHundreds0
      tripCompletedBy := none
      deck := some deck
      turnsElapsed := 1 }
  let stF := simWhileLoop env.cat teams (deck.length + 1) st0
  (mapOption (fun i =>
      (if i = gs.us.number then some gs.us else teamNumberToTeam gs i).map (fun team =>
        if (stF.needRemedy i).isSome ∨ stF.moving i = false then 1000 - team.mileage
        else stF.needMileage i))
    (List.range (gs.opponents.length + 1))).map
    (fun tail => (stF.turnsElapsed : ℤ) :: tail)

/-- MatthewgAI.monteCarloMileageSimulation (lines 506-593): 100
independent playouts. -/
def monteCarloMileageSimulation (env : Env) (s : AIState) (gs : GameState) :
    Option (List (List ℤ)) :=
  mapOption (fun k => monteCarloOnePlayout env s gs k) (List.range 100)

/-- MatthewgAI.expectedTurnsLeft (lines 603-616). -/
def expectedTurnsLeft (env : Env) (s : AIState) (gs : GameState) : Option ℚ :=
  if useMonteCarloSimulation gs then some (deckExhaustionTurnsLeft gs)
  else
    (monteCarloMileageSimulation env s gs).map (fun results =>
      let gameEndTurns := results.map (fun outcome => outcome.getD 0 0)
      ((⌈((gameEndTurns.sum : ℤ) : ℚ) / (results.length : ℚ)⌉ : ℤ) : ℚ))

/-- Local teamMovesLeft of chanceTeamWillCompleteTrip (lines 402-404). -/
def teamMovesLeft (gs : GameState) (team : Team) : ℚ :=
  deckExhaustionTurnsLeft gs * (team.playerNumbers.length : ℚ)

/-- Local goCoeff of chanceTeamWillCompleteTrip (lines 406-409). -/
def goCoeff (env : Env) (s : AIState) (gs : GameState) (team : Team) : ℚ :=
  if team.moving then 1
  else min 1 (percentOfCardsRemaining s [env.cat.REMEDY_GO] * teamMovesLeft gs team)

/-- Local remedyCoeff of chanceTeamWillCompleteTrip (lines 411-416). -/
def remedyCoeff (env : Env) (s : AIState) (gs : GameState) (team : Team) : ℚ :=
  match team.needRemedy with
  | some r =>
    if r ≠ env.cat.REMEDY_GO then
      min 1 (percentOfCardsRemaining s [r, env.cat.remedyToSafety r] * teamMovesLeft gs team)
    else 1
  | none => 1

/-- Local needMileage of chanceTeamWillCompleteTrip (line 422). -/
def needMileageOf (team : Team) : ℤ :=
  1000 - team.mileage

/-- Local validMileageCards of chanceTeamWillCompleteTrip
(lines 423-426), sorted descending as the source does. -/
def validMileageCards (cat : Catalog) (team : Team) : List ℕ :=
  (cat.MILEAGE_CARDS.filter
    (fun card => decide (cat.cardToMileage card ≤ needMileageOf team))).mergeSort
    (fun a b => decide (b ≤ a))

/-- Local unseenTotalMileage of chanceTeamWillCompleteTrip
(lines 428-429). -/
def unseenTotalMileage (cat : Catalog) (s : AIState) (team : Team) : ℤ :=
  ((validMileageCards cat team).map
    (fun card => cat.cardToMileage card * s.cardsUnseen card)).sum

/-- Analytical (card-counting) estimate of chanceTeamWillCompleteTrip
(lines 401-451): the else-branch taken when the Monte Carlo mode is
off. -/
def chanceTeamWillCompleteTripAnalytic (env : Env) (s : AIState) (gs : GameState)
    (team : Team) : ℚ :=
  let gc := goCoeff env s gs team
  let rc := remedyCoeff env s gs team
  if gc = 0 ∨ rc = 0 then 0
  else
    let needMileage := needMileageOf team
    let validMileagePct := percentOfCardsRemaining s (validMileageCards env.cat team)
    let unseenTotal := unseenTotalMileage env.cat s team
    if unseenTotal < needMileage then 0
    else
      min 1 (validMileagePct * ((unseenTotal : ℚ) / (needMileage : ℚ)) *
        teamMovesLeft gs team * rc * gc)

/-- MatthewgAI.chanceTeamWillCompleteTrip (lines 386-453). -/
def chanceTeamWillCompleteTrip (env : Env) (s : AIState) (gs : GameState) (team : Team) :
    Option ℚ :=
  if useMonteCarloSimulation gs then
    (monteCarloMileageSimulation env s gs).map (fun results =>
      let teamResults := results.map (fun result => result.getD (team.number + 1) 0)
      let completionCount := (teamResults.filter (fun r => decide (r = 0))).length
      (completionCount : ℚ) / (teamResults.length : ℚ))
  else
    some (chanceTeamWillCompleteTripAnalytic env s gs team)

/-- MatthewgAI.chanceTeamWillWin (lines 455-492). -/
def chanceTeamWillWin (env : Env) (gs : GameState) (team : Team) : ℚ :=
  let priorOddsTargetWillWinGame : ℚ := 1 / ((gs.opponents.length : ℚ) + 1)
  let maxScore : ℤ := (gs.opponents.map Team.totalScore).foldl max gs.us.totalScore
  let gamePercentDone : ℚ := (maxScore : ℚ) / (env.pointsToWin : ℚ)
  if maxScore = 0 then priorOddsTargetWillWinGame
  else
    let currentScoreTargetWinChance : ℚ := (team.totalScore : ℚ) / (maxScore : ℚ)
    ((currentScoreTargetWinChance * gamePercentDone) +
      (priorOddsTargetWillWinGame * (1 - gamePercentDone))) / 2

/-- MatthewgAI.cardValue (lines 281-373).  `cards` is the
discard-candidates list built in makeMove, whose entries are a card for a
discard move and None for a play move.  A value of none models the
exceptions the Python code can raise inside this computation (failed team
lookup inside the Monte Carlo simulator reached via expectedTurnsLeft).
In the ATTACK branch, an empty opponents list makes Python raise
ZeroDivisionError; here the q / 0 = 0 convention applies. -/
def cardValue (env : Env) (s : AIState) (gs : GameState) (card : ℕ) (cardIdx : ℕ)
    (cards : List (Option ℕ)) : Option ℚ :=
  let numDuplicates := (cards.filter (fun c => c == some card)).length
  let dupeCoeff := dupeCoefficient numDuplicates
  match env.cat.cardToType card with
  | CardType.MILEAGE =>
    let mileage := env.cat.cardToMileage card
    let mileageRemaining := 1000 - gs.us.mileage
    if mileage > mileageRemaining then some (0 * dupeCoeff)
    else if mileage = 200 ∧ gs.us.twoHundredsPlayed ≥ 2 then some (0 * dupeCoeff)
    else if mileage = 25 ∧ cards.indexOf (some card) = cardIdx then some (1 * dupeCoeff)
    else some (mileageCardValue env gs card * dupeCoeff)
  | CardType.REMEDY =>
    let relevantAttacks0 :=
      if card = env.cat.REMEDY_GO then env.cat.ATTACKS
      else [env.cat.remedyToAttack card]
    let relevantAttacks := relevantAttacks0.filter (fun c =>
      decide (¬ (env.cat.attackToSafety c ∈ gs.us.safeties ∨
                 some (env.cat.attackToSafety c) ∈ cards)))
    let turnPoints := expectedTurnPoints gs.us
    let turnPointValue := valueOfPoints env (turnPoints : ℚ) gs.us
    if cards.indexOf (some card) = cardIdx ∧
        ((gs.us.moving = false ∧ card = env.cat.REMEDY_GO) ∨
         (gs.us.speedLimit = true ∧ card = env.cat.REMEDY_END_OF_LIMIT) ∨
         gs.us.needRemedy = some card) then
      some (turnPointValue * 1 * dupeCoeff)
    else
      (expectedTurnsLeft env s gs).map (fun etl =>
        let attackOdds := percentOfCardsRemaining s relevantAttacks * etl
        let attackOnUsOdds := attackOdds / ((gs.opponents.length : ℚ) + 1)
        turnPointValue * attackOnUsOdds * dupeCoeff)
  | CardType.SAFETY => some (1 * dupeCoeff)
  | CardType.ATTACK =>
    let safety := env.cat.attackToSafety card
    let remedy := env.cat.attackToRemedy card
    let valuesPerTarget := gs.opponents.map (fun target =>
      (1 - chanceOpponentHasProtection env s target card) *
      (1 - percentOfCardsRemaining s [safety, remedy]) *
      valueOfPoints env ((expectedTurnPoints target : ℤ) : ℚ) target)
    some (valuesPerTarget.sum / (valuesPerTarget.length : ℚ) * dupeCoeff)

/-- MatthewgAI.moveValue (lines 180-247).  In the mileage branch the
source's comprehension `[card for card in discardCards if card == card]`
binds a loop variable that shadows the outer `card`, so its filter is
vacuously true and the length is the length of discardCards itself; the
model mirrors that shadowing bug literally. -/
def moveValue (env : Env) (s : AIState) (gs : GameState) (move : Move) (discardIdx : ℕ)
    (discardCards : List (Option ℕ)) : Option ℚ :=
  match move.type with
  | MoveType.DISCARD =>
    (cardValue env s gs move.card discardIdx discardCards).map (fun cv =>
      (1 - cv) * Constants.DISCARD_MOVE_VALUE_PENALTY)
  | MoveType.PLAY =>
    match env.cat.cardToType move.card with
    | CardType.MILEAGE =>
      let value := mileageCardValue env gs move.card
      let mileage := env.cat.cardToMileage move.card
      if mileage = gs.target - gs.us.mileage then some 1
      else if mileage = 25 ∧ (discardCards.filter (fun card => card == card)).length < 2 then
        some 0
      else some value
    | CardType.REMEDY =>
      if move.card = env.cat.REMEDY_END_OF_LIMIT ∧ gs.us.speedLimit = false then some 0
      else some 1
    | CardType.SAFETY => some Constants.SAFETY_HORDE_FACTOR
    | CardType.ATTACK =>
      (teamNumberToTeam gs move.target).bind (fun target =>
        let rest : Option ℚ :=
          let attackQualityModifier :=
            if move.card = env.cat.ATTACK_STOP then Constants.ATTACK_QUALITY_MOD_STOP
            else if move.card = env.cat.ATTACK_SPEED_LIMIT then Constants.ATTACK_QUALITY_MOD_LIMIT
            else 1
          (chanceTeamWillCompleteTrip env s gs target).map (fun completion =>
            (1 - chanceOpponentHasProtection env s target move.card) *
            chanceTeamWillWin env gs target *
            completion *
            attackQualityModifier)
        if move.card = env.cat.ATTACK_SPEED_LIMIT then
          if target.speedLimit then some 0 else rest
        else
          if (match target.needRemedy with
              | some r => decide (r ≠ env.cat.REMEDY_GO)
              | none => false) then some 0
          else rest)

/-- The discardCards list of makeMove (lines 163-166): per move, its
card for a discard and None for a play. -/
def discardCardsOf (moves : List Move) : List (Option ℕ) :=
  moves.map (fun move =>
    match move.type with
    | MoveType.DISCARD => some move.card
    | MoveType.PLAY => none)

/-- The moveValues dict comprehension of makeMove (lines 167-169):
value every move at its index; the whole computation fails if any
moveValue does (a Python exception propagates out of the dict
comprehension). -/
def moveValuesAssoc (env : Env) (s : AIState) (gs : GameState) : Option (List (Move × ℚ)) :=
  mapOption (fun p =>
    (moveValue env s gs p.2 p.1 (discardCardsOf gs.validMoves)).map (fun v => (p.2, v)))
    gs.validMoves.enum

/-- MatthewgAI.makeMove (lines 158-178): build the discard-candidates
list, value every move, sort descending (stably, as Python's sort) by
value, and return the first.  The Python moveValues dict is keyed by the
move, so a duplicate move keeps the value computed at its last index
(hence the reversed lookup).  Move equality is modelled structurally. -/
def makeMove (env : Env) (s : AIState) (gs : GameState) : Option Move :=
  (moveValuesAssoc env s gs).bind (fun assoc =>
    let moveValues : Move → ℚ :=
      fun move => (((assoc.reverse).find? (fun q => q.1 == move)).map Prod.snd).getD 0
    (gs.validMoves.mergeSort (fun a b => decide (moveValues b ≤ moveValues a))).head?)

/-! Helper lemmas shared by the claim theorems. -/

/-- The percentage returned by percentOfCardsRemaining is non-negative
whenever the requested cards' unseen counts are. -/
lemma percentOfCardsRemaining_nonneg (s : AIState) (cards : List ℕ)
    (h : ∀ c ∈ cards, 0 ≤ s.cardsUnseen c) : 0 ≤ percentOfCardsRemaining s cards := by
  simp only [percentOfCardsRemaining]
  have hcc : (0:ℤ) ≤ (cards.map s.cardsUnseen).sum := by
    apply List.sum_nonneg
    intro x hx
    obtain ⟨c, hc, rfl⟩ := List.mem_map.mp hx
    exact h c hc
  have hden : (0:ℤ) ≤ max (max s.numCardsUnseen ((cards.map s.cardsUnseen).sum)) 1 :=
    le_trans zero_le_one (le_max_right _ _)
  exact div_nonneg (by exact_mod_cast hcc) (by exact_mod_cast hden)

/-- The percentage returned by percentOfCardsRemaining never exceeds 1:
the denominator max(total, sum, 1) dominates the numerator. -/
lemma percentOfCardsRemaining_le_one (s : AIState) (cards : List ℕ) :
    percentOfCardsRemaining s cards ≤ 1 := by
  simp only [percentOfCardsRemaining]
  have h1 : (0:ℚ) < ((max (max s.numCardsUnseen ((cards.map s.cardsUnseen).sum)) 1 : ℤ) : ℚ) := by
    have h2 : (1:ℤ) ≤ max (max s.numCardsUnseen ((cards.map s.cardsUnseen).sum)) 1 :=
      le_max_right _ _
    exact_mod_cast lt_of_lt_of_le zero_lt_one h2
  rw [div_le_one h1]
  exact_mod_cast le_trans (le_max_right s.numCardsUnseen _) (le_max_left _ 1)

/-- deckExhaustionTurnsLeft is non-negative when cards remain in the
draw pile. -/
lemma deckExhaustionTurnsLeft_nonneg (gs : GameState) (hcl : 0 ≤ gs.cardsLeft) :
    0 ≤ deckExhaustionTurnsLeft gs := by
  simp only [deckExhaustionTurnsLeft]
  have h : (0:ℚ) ≤ (gs.cardsLeft : ℚ) /
      ((((gs.us :: gs.opponents).map (fun t => t.playerNumbers.length)).sum : ℕ) : ℚ) :=
    div_nonneg (by exact_mod_cast hcl) (by positivity)
  exact le_trans h (Int.le_ceil _)

/-- teamMovesLeft is non-negative when cards remain in the draw pile. -/
lemma teamMovesLeft_nonneg (gs : GameState) (team : Team) (hcl : 0 ≤ gs.cardsLeft) :
    0 ≤ teamMovesLeft gs team :=
  mul_nonneg (deckExhaustionTurnsLeft_nonneg gs hcl) (by positivity)

/-- goCoeff is non-negative for a tracker state with non-negative
counts. -/
lemma goCoeff_nonneg (env : Env) (s : AIState) (gs : GameState) (team : Team)
    (hcnt : ∀ c, 0 ≤ s.cardsUnseen c) (hcl : 0 ≤ gs.cardsLeft) :
    0 ≤ goCoeff env s gs team := by
  simp only [goCoeff]
  split
  · norm_num
  · exact le_min (by norm_num)
      (mul_nonneg (percentOfCardsRemaining_nonneg s _ (fun c _ => hcnt c))
        (teamMovesLeft_nonneg gs team hcl))

/-- remedyCoeff is non-negative for a tracker state with non-negative
counts. -/
lemma remedyCoeff_nonneg (env : Env) (s : AIState) (gs : GameState) (team : Team)
    (hcnt : ∀ c, 0 ≤ s.cardsUnseen c) (hcl : 0 ≤ gs.cardsLeft) :
    0 ≤ remedyCoeff env s gs team := by
  simp only [remedyCoeff]
  split
  · split
    · exact le_min (by norm_num)
        (mul_nonneg (percentOfCardsRemaining_nonneg s _ (fun c _ => hcnt c))
          (teamMovesLeft_nonneg gs team hcl))
    · norm_num
  · norm_num

/-- Every card of validMileageCards is a mileage card of the catalog. -/
lemma validMileageCards_subset (cat : Catalog) (team : Team) :
    ∀ c ∈ validMileageCards cat team, c ∈ cat.MILEAGE_CARDS := by
  intro c hc
  simp only [validMileageCards] at hc
  have h1 := (List.mergeSort_perm
    (cat.MILEAGE_CARDS.filter (fun card => decide (cat.cardToMileage card ≤ needMileageOf team)))
    (fun a b => decide (b ≤ a))).subset hc
  exact (List.mem_filter.mp h1).1

/-- unseenTotalMileage is non-negative when counts and catalog mileages
are. -/
lemma unseenTotalMileage_nonneg (cat : Catalog) (s : AIState) (team : Team)
    (hcnt : ∀ c, 0 ≤ s.cardsUnseen c)
    (hmil : ∀ c ∈ cat.MILEAGE_CARDS, 0 ≤ cat.cardToMileage c) :
    0 ≤ unseenTotalMileage cat s team := by
  simp only [unseenTotalMileage]
  apply List.sum_nonneg
  intro x hx
  obtain ⟨c, hc, rfl⟩ := List.mem_map.mp hx
  exact mul_nonneg (hmil c (validMileageCards_subset cat team c hc)) (hcnt c)

/-! Concrete inputs used by witnesses and counterexamples. -/

/-- A small concrete catalog: cards 0,1 mileage (25km, 100km), cards 2,7
attacks, card 3 a safety, the rest remedies. -/
def catW : Catalog where
  cardToType := fun card =>
    if card ≤ 1 then CardType.MILEAGE
    else if card = 2 ∨ card = 7 then CardType.ATTACK
    else if card = 3 then CardType.SAFETY
    else CardType.REMEDY
  cardToMileage := fun card => if card = 0 then 25 else if card = 1 then 100 else 0
  attackToSafety := fun _ => 3
  attackToRemedy := fun _ => 4
  remedyToSafety := fun _ => 3
  remedyToAttack := fun _ => 2
  REMEDY_GO := 5
  REMEDY_END_OF_LIMIT := 6
  ATTACK_STOP := 2
  ATTACK_SPEED_LIMIT := 7
  ATTACKS := [2, 7]
  MILEAGE_CARDS := [0, 1]
  compositionKeys := [0, 1, 2, 3, 4, 5, 6, 7]
  composition := fun card => if card = 0 then 2 else 1

/-- Concrete environment for witnesses: the small catalog, 5000 points
to win, identity randomness. -/
def envW : Env where
  cat := catW
  pointsToWin := 5000
  rng := fun _ deck => deck

/-- Concrete tracker state for witnesses. -/
def sW : AIState where
  cardsUnseen := fun c => if c = 0 then 3 else 0
  numCardsUnseen := 10
  interestingRemedyDiscardsByPlayer := fun _ _ => 0

/-- Concrete team at 750km. -/
def teamW0 : Team where
  number := 0
  playerNumbers := [0]
  mileage := 750
  moving := true
  needRemedy := none
  speedLimit := false
  twoHundredsPlayed := 0
  safeties := []
  totalScore := 0

/-- Concrete opponent team at 0km with 3000 points. -/
def teamW1 : Team :=
  { teamW0 with number := 1, playerNumbers := [1], mileage := 0, totalScore := 3000 }

/-- Concrete team that already reached the points-to-win total. -/
def teamW2 : Team :=
  { teamW0 with number := 2, totalScore := 5000 }

/-- Concrete team that has played safety card 3. -/
def teamW3 : Team :=
  { teamW0 with number := 3, safeties := [3] }

/-- Concrete game state sitting exactly at the 75% trip boundary with 20
turns of deck left. -/
def gsC9 : GameState where
  us := teamW0
  opponents := [teamW1]
  validMoves := []
  target := 1000
  cardsLeft := 40
  debug := false

/-- C3: for every tracker state with non-negative per-card counts and
every requested card set, percentOfCardsRemaining (which computes
sum(unseen counts) / max(total unseen, that sum, 1)) is in [0,1], and it
is 0 whenever every requested card's unseen count is 0. -/
theorem percentOfCardsRemaining_spec (s : AIState) (cards : List ℕ)
    (h : ∀ c ∈ cards, 0 ≤ s.cardsUnseen c) :
    0 ≤ percentOfCardsRemaining s cards ∧ percentOfCardsRemaining s cards ≤ 1 ∧
      ((∀ c ∈ cards, s.cardsUnseen c = 0) → percentOfCardsRemaining s cards = 0) := by
  refine ⟨percentOfCardsRemaining_nonneg s cards h, percentOfCardsRemaining_le_one s cards, ?_⟩
  intro hz
  simp only [percentOfCardsRemaining]
  have hsum : (cards.map s.cardsUnseen).sum = 0 := by
    apply List.sum_eq_zero
    intro x hx
    obtain ⟨c, hc, rfl⟩ := List.mem_map.mp hx
    exact hz c hc
  rw [hsum]
  simp

/-- C3 witness: the bounds instantiated at a concrete tracker state and
request. -/
theorem percentOfCardsRemaining_spec_witness :
    (∀ c ∈ [0, 1], (0:ℤ) ≤ sW.cardsUnseen c) ∧
      0 ≤ percentOfCardsRemaining sW [0, 1] ∧ percentOfCardsRemaining sW [0, 1] ≤ 1 :=
  ⟨by decide, (percentOfCardsRemaining_spec sW [0, 1] (by decide)).1,
    (percentOfCardsRemaining_spec sW [0, 1] (by decide)).2.1⟩

/-- C4: chanceOpponentHasProtection returns exactly 1.0 whenever the
attack's matching safety is in the team's played-safeties set,
independently of the tracker counts and of the discard-suspicion
history (both quantified over arbitrarily). -/
theorem chanceOpponentHasProtection_safety_played (env : Env) (s : AIState) (team : Team)
    (attack : ℕ) (h : env.cat.attackToSafety attack ∈ team.safeties) :
    chanceOpponentHasProtection env s team attack = 1 := by
  simp only [chanceOpponentHasProtection]
  rw [if_pos h]

/-- C4 witness: protection odds are 1 against the concrete team that has
played the matching safety. -/
theorem chanceOpponentHasProtection_safety_played_witness :
    envW.cat.attackToSafety 2 ∈ teamW3.safeties ∧
      chanceOpponentHasProtection envW sW teamW3 2 = 1 :=
  ⟨by decide, chanceOpponentHasProtection_safety_played envW sW teamW3 2 (by decide)⟩

/-- C5 counterexample: the duplicate coefficient is not non-decreasing
in the duplicate count: at d = 2 it is strictly below its value at
d = 1. -/
theorem dupeCoefficient_two_lt_one :
    dupeCoefficient 2 < dupeCoefficient 1 := by
  norm_num [dupeCoefficient, Constants.DUPE_PENALTY_FACTOR]

/-- C5 amended: the duplicate coefficient 1 - (1 - 1/d) / 3 computed in
cardValue is monotonically non-increasing as the duplicate count grows
from 1 upward, and equals exactly 1 at d = 1. -/
theorem dupeCoefficient_antitone (d1 d2 : ℕ) (h1 : 1 ≤ d1) (h12 : d1 ≤ d2) :
    dupeCoefficient d2 ≤ dupeCoefficient d1 ∧ dupeCoefficient 1 = 1 := by
  constructor
  · have hd1 : (0:ℚ) < (d1:ℚ) := by exact_mod_cast Nat.lt_of_lt_of_le Nat.zero_lt_one h1
    have hle : (d1:ℚ) ≤ (d2:ℚ) := by exact_mod_cast h12
    have hinv : (1:ℚ)/(d2:ℚ) ≤ 1/(d1:ℚ) := one_div_le_one_div_of_le hd1 hle
    simp only [dupeCoefficient, Constants.DUPE_PENALTY_FACTOR]
    linarith
  · norm_num [dupeCoefficient, Constants.DUPE_PENALTY_FACTOR]

/-- C5 witness: the amended monotonicity applied at d1 = 1, d2 = 2. -/
theorem dupeCoefficient_antitone_witness :
    dupeCoefficient 2 ≤ dupeCoefficient 1 ∧ dupeCoefficient 1 = 1 :=
  dupeCoefficient_antitone 1 2 (by norm_num) (by norm_num)

/-- C9 counterexample: at exactly 75% trip completion with 20 turns of
deck left, useMonteCarloSimulation is false although the claimed
condition (max completion fraction at least 0.75) holds: the source
tests the strict inequality maxTripPctDone() > 0.75. -/
theorem useMonteCarloSimulation_at_three_quarters :
    useMonteCarloSimulation gsC9 = false ∧ 3 / 4 ≤ maxTripPctDone gsC9 ∧
      ¬ deckExhaustionTurnsLeft gsC9 < 10 := by
  have hmax : maxTripPctDone gsC9 = 3 / 4 := by
    simp [maxTripPctDone, gsC9, teamW0, teamW1]
    norm_num
  have hdeck : deckExhaustionTurnsLeft gsC9 = 20 := by
    simp [deckExhaustionTurnsLeft, gsC9, teamW0, teamW1]
    norm_num
  refine ⟨?_, le_of_eq hmax.symm, by rw [hdeck]; exact not_lt.mpr (by norm_num)⟩
  norm_num [useMonteCarloSimulation, hmax, hdeck]

/-- C9 amended: useMonteCarloSimulation is true iff the maximum trip
completion fraction strictly exceeds 0.75 or the estimated turns until
deck exhaustion are below 10 (the source uses strict comparison against
0.75, not at-least). -/
theorem useMonteCarloSimulation_iff_spec (gs : GameState) :
    useMonteCarloSimulation gs = true ↔
      3 / 4 < maxTripPctDone gs ∨ deckExhaustionTurnsLeft gs < 10 := by
  simp [useMonteCarloSimulation]

/-- C10: valueOfPoints returns exactly 0.5 for every points argument
once the team's total score has reached the points-to-win constant (the
clamped points-remaining is 0), and otherwise returns
min(1, points / pointsRemaining), which lies in [0,1] for non-negative
points. -/
theorem valueOfPoints_spec (env : Env) (points : ℚ) (team : Team) :
    (env.pointsToWin ≤ team.totalScore → valueOfPoints env points team = 1 / 2) ∧
    (team.totalScore < env.pointsToWin →
      valueOfPoints env points team =
        min 1 (points / ((env.pointsToWin - team.totalScore : ℤ) : ℚ)) ∧
      (0 ≤ points → 0 ≤ valueOfPoints env points team ∧ valueOfPoints env points team ≤ 1)) := by
  constructor
  · intro h
    have h0 : max (env.pointsToWin - team.totalScore) 0 = 0 := max_eq_right (by linarith)
    simp only [valueOfPoints, h0]
    norm_num
  · intro h
    have hpos : 0 < env.pointsToWin - team.totalScore := by linarith
    have h0 : max (env.pointsToWin - team.totalScore) 0 = env.pointsToWin - team.totalScore :=
      max_eq_left (by linarith)
    have hval : valueOfPoints env points team =
        min 1 (points / ((env.pointsToWin - team.totalScore : ℤ) : ℚ)) := by
      simp only [valueOfPoints, h0]
      rw [if_pos hpos]
    refine ⟨hval, fun hp => ?_⟩
    have hq : (0:ℚ) < ((env.pointsToWin - team.totalScore : ℤ) : ℚ) := by exact_mod_cast hpos
    rw [hval]
    exact ⟨le_min (by norm_num) (div_nonneg hp hq.le), min_le_left _ _⟩

/-- C10 witness: 0.5 at a team that reached 5000 of 5000 points, and the
min-formula at a team with 2000 points remaining. -/
theorem valueOfPoints_spec_witness :
    valueOfPoints envW 75 teamW2 = 1 / 2 ∧
      valueOfPoints envW 75 teamW1 = min 1 (75 / ((5000 - 3000 : ℤ) : ℚ)) :=
  ⟨(valueOfPoints_spec envW 75 teamW2).1 (by decide),
    ((valueOfPoints_spec envW 75 teamW1).2 (by decide)).1⟩

/-- C7: in a hand holding exactly two instances of the same 25-distance
identifier (neither dead weight nor over the 200-cap), cardValue gives
the reserved value 1.0 x dupeCoefficient to exactly the position that
matches the hand-lookup index (cards.index), and the generic mileage
valuation x dupeCoefficient to the other position. -/
theorem cardValue_reserved_single_25 (env : Env) (s : AIState) (gs : GameState) (card : ℕ)
    (j : ℕ) (cards : List (Option ℕ))
    (htype : env.cat.cardToType card = CardType.MILEAGE)
    (hm : env.cat.cardToMileage card = 25)
    (hlive : 25 ≤ 1000 - gs.us.mileage)
    (hdup : (cards.filter (fun c => c == some card)).length = 2)
    (_hj : cards.getD j none = some card)
    (hne : cards.indexOf (some card) ≠ j) :
    cardValue env s gs card (cards.indexOf (some card)) cards = some (1 * dupeCoefficient 2) ∧
      cardValue env s gs card j cards =
        some (mileageCardValue env gs card * dupeCoefficient 2) := by
  constructor
  · simp only [cardValue, hdup, htype, hm]
    rw [if_neg (not_lt.mpr hlive), if_neg (by norm_num), if_pos (by simp)]
  · simp only [cardValue, hdup, htype, hm]
    rw [if_neg (not_lt.mpr hlive), if_neg (by norm_num), if_neg (fun h => hne h.2)]

/-- C7 witness: the reserved-card split at the concrete two-card hand
[25km, 25km]. -/
theorem cardValue_reserved_single_25_witness :
    cardValue envW sW gsC9 0 (List.indexOf (some 0) [some 0, some 0]) [some 0, some 0] =
        some (1 * dupeCoefficient 2) ∧
      cardValue envW sW gsC9 0 1 [some 0, some 0] =
        some (mileageCardValue envW gsC9 0 * dupeCoefficient 2) :=
  cardValue_reserved_single_25 envW sW gsC9 0 1 [some 0, some 0] (by decide) (by decide)
    (by decide) (by decide) (by decide) (by decide)

/-- Concrete team at 0km used by the C6 failing input. -/
def teamC6 : Team :=
  { teamW0 with mileage := 0 }

/-- C6 failing input: play the only 25km card while the two sibling
discard candidates are 100km cards (three valid moves in total, no 25
among the discard candidates). -/
def gsC6 : GameState where
  us := teamC6
  opponents := [teamW1]
  validMoves := [Move.mk MoveType.PLAY 0 0, Move.mk MoveType.DISCARD 1 0,
    Move.mk MoveType.DISCARD 1 0]
  target := 1000
  cardsLeft := 40
  debug := false

/-- Discard-candidates list makeMove builds from gsC6.validMoves. -/
def dcC6 : List (Option ℕ) := [none, some 1, some 1]

/-- C6 (code bug): on this input no duplicate 25 exists among the
sibling discard candidates, so per the claim the play-25 move should be
valued 0.0 (reserve the last 25); the code instead returns the generic
mileage valuation 3/1000, because the comprehension
`[card for card in discardCards if card == card]` shadows the outer
`card` and counts every candidate (3 here, not the number of 25s). -/
theorem moveValue_shadowed_filter_bug :
    (dcC6.filter (fun c => c == some 0)).length < 2 ∧
      moveValue envW sW gsC6 (Move.mk MoveType.PLAY 0 0) 0 dcC6 = some (3 / 1000) ∧
      (3 / 1000 : ℚ) ≠ 0 := by
  refine ⟨by decide, ?_, by norm_num⟩
  norm_num [moveValue, mileageCardValue, valueOfPoints, envW, catW, gsC6, teamC6, teamW0,
    dcC6, List.filter]

/-- The aggregate-total invariant of the card-count tracker: the running
total equals the sum of the per-card unseen counts over the composition
keys. -/
def trackerSumInv (cat : Catalog) (s : AIState) : Prop :=
  s.numCardsUnseen = (cat.compositionKeys.map s.cardsUnseen).sum

/-- An observation event only touches composition keys. -/
def obsInKeys (cat : Catalog) (e : Obs) : Prop :=
  ∀ c, obsCard e = some c → c ∈ cat.compositionKeys

instance (cat : Catalog) (e : Obs) : Decidable (obsInKeys cat e) :=
  match h : obsCard e with
  | none => isTrue (by intro c hc; rw [h] at hc; cases hc)
  | some c =>
    if hmem : c ∈ cat.compositionKeys then
      isTrue (by intro c2 hc2; rw [h] at hc2; cases hc2; exact hmem)
    else isFalse (fun hall => hmem (hall c h))

/-- Summing over duplicate-free keys after decrementing one key's entry
drops the total by exactly one. -/
lemma sum_map_update_sub (keys : List ℕ) (f : ℕ → ℤ) (c : ℕ)
    (hnd : keys.Nodup) (hc : c ∈ keys) :
    (keys.map (Function.update f c (f c - 1))).sum = (keys.map f).sum - 1 := by
  induction keys with
  | nil => cases hc
  | cons k ks ih =>
    have hk : k ∉ ks := (List.nodup_cons.mp hnd).1
    have hnd2 : ks.Nodup := (List.nodup_cons.mp hnd).2
    rcases List.mem_cons.mp hc with hkc | hc2
    · subst hkc
      rw [List.map_cons, List.map_cons, List.sum_cons, List.sum_cons, Function.update_same]
      have hmap : ks.map (Function.update f c (f c - 1)) = ks.map f := by
        apply List.map_congr_left
        intro x hx
        exact Function.update_noteq (fun h => hk (by rw [h] at hx; exact hx)) _ _
      rw [hmap]
      ring
    · have hkc : k ≠ c := fun h => hk (by rw [h]; exact hc2)
      rw [List.map_cons, List.map_cons, List.sum_cons, List.sum_cons,
        Function.update_noteq hkc, ih hnd2 hc2]
      ring

/-- playerPlayed touches the two count fields exactly as cardSeen does
(its branches only edit the discard-suspicion map). -/
lemma playerPlayed_counts (cat : Catalog) (s : AIState) (player : ℕ) (move : Move) :
    (playerPlayed cat s player move).cardsUnseen = (cardSeen s move.card).cardsUnseen ∧
      (playerPlayed cat s player move).numCardsUnseen = (cardSeen s move.card).numCardsUnseen := by
  simp only [playerPlayed]
  split
  · split <;> exact ⟨rfl, rfl⟩
  · exact ⟨rfl, rfl⟩

/-- One observation event preserves the aggregate-total invariant. -/
lemma trackerSumInv_applyObs (cat : Catalog) (s : AIState) (e : Obs)
    (hnd : cat.compositionKeys.Nodup) (hmem : obsInKeys cat e)
    (hinv : trackerSumInv cat s) : trackerSumInv cat (applyObs cat s e) := by
  cases e with
  | drawn card =>
    have hc : card ∈ cat.compositionKeys := hmem card rfl
    simp only [applyObs, cardDrawn, trackerSumInv, cardSeen] at *
    rw [sum_map_update_sub _ _ _ hnd hc, hinv]
  | played player move =>
    have hc : move.card ∈ cat.compositionKeys := hmem move.card rfl
    have hcu := playerPlayed_counts cat s player move
    simp only [applyObs, trackerSumInv]
    rw [hcu.1, hcu.2]
    simp only [cardSeen]
    rw [sum_map_update_sub _ _ _ hnd hc]
    rw [trackerSumInv] at hinv
    rw [hinv]
  | ended =>
    simp only [applyObs, handEnded, trackerSumInv, resetCardCount]

/-- The aggregate-total invariant is preserved along any fold of
observation events over composition keys. -/
lemma trackerSumInv_foldl (cat : Catalog) :
    ∀ (events : List Obs) (s : AIState),
      cat.compositionKeys.Nodup →
      (∀ e ∈ events, obsInKeys cat e) →
      trackerSumInv cat s →
      trackerSumInv cat (events.foldl (applyObs cat) s)
  | [], _, _, _, hinv => hinv
  | e :: rest, s, hnd, hmem, hinv => by
    rw [List.foldl_cons]
    exact trackerSumInv_foldl cat rest _ hnd
      (fun x hx => hmem x (List.mem_cons_of_mem e hx))
      (trackerSumInv_applyObs cat s e hnd (hmem e (List.mem_cons_self e rest)) hinv)

/-- Along a consistent trace, all per-card counts stay non-negative. -/
lemma cardsUnseen_nonneg_foldl (cat : Catalog) :
    ∀ (events : List Obs) (s : AIState),
      (∀ c, 0 ≤ s.cardsUnseen c) →
      validTrace cat s events = true →
      ∀ c, 0 ≤ (events.foldl (applyObs cat) s).cardsUnseen c
  | [], _, hs, _, c => hs c
  | e :: rest, s, hs, hv, c => by
    rw [List.foldl_cons]
    have hv2 : (match obsCard e with
        | some card => decide (1 ≤ s.cardsUnseen card)
        | none => true) = true ∧ validTrace cat (applyObs cat s e) rest = true := by
      rw [← Bool.and_eq_true]
      exact hv
    apply cardsUnseen_nonneg_foldl cat rest _ ?_ hv2.2
    intro c2
    cases e with
    | drawn card =>
      have hg : 1 ≤ s.cardsUnseen card := by
        have h1 := hv2.1
        simp only [obsCard] at h1
        exact of_decide_eq_true h1
      simp only [applyObs, cardDrawn, cardSeen]
      by_cases hc2 : c2 = card
      · subst hc2
        rw [Function.update_same]
        linarith
      · rw [Function.update_noteq hc2]
        exact hs c2
    | played player move =>
      have hg : 1 ≤ s.cardsUnseen move.card := by
        have h1 := hv2.1
        simp only [obsCard] at h1
        exact of_decide_eq_true h1
      have hcu := playerPlayed_counts cat s player move
      simp only [applyObs]
      rw [hcu.1]
      simp only [cardSeen]
      by_cases hc2 : c2 = move.card
      · subst hc2
        rw [Function.update_same]
        linarith
      · rw [Function.update_noteq hc2]
        exact hs c2
    | ended =>
      simp only [applyObs, handEnded, resetCardCount]
      exact Int.natCast_nonneg _

/-- C2 counterexample: observing a single-copy card twice drives its
unseen count to -1: cardSeen decrements unconditionally instead of
failing, so the per-card count does not stay non-negative over arbitrary
observation sequences. -/
theorem cardSeen_drives_count_negative :
    (runObs catW [Obs.drawn 2, Obs.drawn 2]).cardsUnseen 2 < 0 := by decide

/-- C2 amended: over every observation sequence that touches only
composition keys (distinct, as dict keys are), the aggregate unseen
total always equals the sum of the per-card unseen counts; and if the
trace is consistent (no card observed when the tracker already expects
zero copies of it, which is what correct external reporting guarantees),
every per-card count stays non-negative.  The failure promised by the
spec on an inconsistent observation does not exist in the code: the
count silently goes negative. -/
theorem tracker_counts_invariant (cat : Catalog) (events : List Obs)
    (hnd : cat.compositionKeys.Nodup)
    (hmem : ∀ e ∈ events, obsInKeys cat e)
    (hvalid : validTrace cat (resetCardCount cat) events = true) :
    (runObs cat events).numCardsUnseen =
        (cat.compositionKeys.map (runObs cat events).cardsUnseen).sum ∧
      ∀ c, 0 ≤ (runObs cat events).cardsUnseen c := by
  constructor
  · exact trackerSumInv_foldl cat events (resetCardCount cat) hnd hmem rfl
  · exact cardsUnseen_nonneg_foldl cat events (resetCardCount cat)
      (fun c => Int.natCast_nonneg _) hvalid

/-- C2 witness: the invariants instantiated on a concrete consistent
trace with two draws, a hand end and another draw. -/
theorem tracker_counts_invariant_witness :
    (runObs catW [Obs.drawn 0, Obs.drawn 0, Obs.ended, Obs.drawn 1]).numCardsUnseen =
        (catW.compositionKeys.map
          (runObs catW [Obs.drawn 0, Obs.drawn 0, Obs.ended, Obs.drawn 1]).cardsUnseen).sum ∧
      0 ≤ (runObs catW [Obs.drawn 0, Obs.drawn 0, Obs.ended, Obs.drawn 1]).cardsUnseen 0 := by
  have h := tracker_counts_invariant catW [Obs.drawn 0, Obs.drawn 0, Obs.ended, Obs.drawn 1]
    (by decide) (by decide) (by decide)
  exact ⟨h.1, h.2 0⟩

/-- C8: on the analytical (non Monte Carlo) path,
chanceTeamWillCompleteTrip returns 0 when the go- or remedy-coefficient
is exactly 0, returns 0 when the unseen total mileage over still-playable
mileage cards is strictly below the needed distance, and otherwise
returns min(1, validMileagePct * (unseenTotalMileage/needMileage) *
teamMovesLeft * remedyCoeff * goCoeff); under well-formed inputs
(non-negative tracker counts, non-negative catalog mileages, cards left
in the draw pile, trip not yet finished) the result is in [0,1]. -/
theorem chanceTeamWillCompleteTrip_analytic_spec (env : Env) (s : AIState) (gs : GameState)
    (team : Team)
    (hmc : useMonteCarloSimulation gs = false)
    (hcnt : ∀ c, 0 ≤ s.cardsUnseen c)
    (hmil : ∀ c ∈ env.cat.MILEAGE_CARDS, 0 ≤ env.cat.cardToMileage c)
    (hcl : 0 ≤ gs.cardsLeft)
    (hneed : team.mileage < 1000) :
    chanceTeamWillCompleteTrip env s gs team =
        some (chanceTeamWillCompleteTripAnalytic env s gs team) ∧
      0 ≤ chanceTeamWillCompleteTripAnalytic env s gs team ∧
      chanceTeamWillCompleteTripAnalytic env s gs team ≤ 1 ∧
      ((goCoeff env s gs team = 0 ∨ remedyCoeff env s gs team = 0) →
        chanceTeamWillCompleteTripAnalytic env s gs team = 0) ∧
      (unseenTotalMileage env.cat s team < needMileageOf team →
        chanceTeamWillCompleteTripAnalytic env s gs team = 0) ∧
      (goCoeff env s gs team ≠ 0 → remedyCoeff env s gs team ≠ 0 →
        needMileageOf team ≤ unseenTotalMileage env.cat s team →
        chanceTeamWillCompleteTripAnalytic env s gs team =
          min 1 (percentOfCardsRemaining s (validMileageCards env.cat team) *
            ((unseenTotalMileage env.cat s team : ℚ) / (needMileageOf team : ℚ)) *
            teamMovesLeft gs team * remedyCoeff env s gs team * goCoeff env s gs team)) := by
  have hfirst : chanceTeamWillCompleteTrip env s gs team =
      some (chanceTeamWillCompleteTripAnalytic env s gs team) := by
    unfold chanceTeamWillCompleteTrip
    rw [hmc]
    simp
  by_cases hzero : goCoeff env s gs team = 0 ∨ remedyCoeff env s gs team = 0
  · have hval : chanceTeamWillCompleteTripAnalytic env s gs team = 0 := by
      simp only [chanceTeamWillCompleteTripAnalytic]
      rw [if_pos hzero]
    exact ⟨hfirst, le_of_eq hval.symm, by rw [hval]; norm_num, fun _ => hval, fun _ => hval,
      fun hg hr _ => by rcases hzero with h | h
                        · exact absurd h hg
                        · exact absurd h hr⟩
  · rw [not_or] at hzero
    by_cases hlt : unseenTotalMileage env.cat s team < needMileageOf team
    · have hval : chanceTeamWillCompleteTripAnalytic env s gs team = 0 := by
        simp only [chanceTeamWillCompleteTripAnalytic]
        rw [if_neg (not_or.mpr hzero), if_pos hlt]
      exact ⟨hfirst, le_of_eq hval.symm, by rw [hval]; norm_num,
        fun h => by rcases h with h | h
                    · exact absurd h hzero.1
                    · exact absurd h hzero.2,
        fun _ => hval, fun _ _ hge => absurd hlt (not_lt.mpr hge)⟩
    · have hval : chanceTeamWillCompleteTripAnalytic env s gs team =
          min 1 (percentOfCardsRemaining s (validMileageCards env.cat team) *
            ((unseenTotalMileage env.cat s team : ℚ) / (needMileageOf team : ℚ)) *
            teamMovesLeft gs team * remedyCoeff env s gs team * goCoeff env s gs team) := by
        simp only [chanceTeamWillCompleteTripAnalytic]
        rw [if_neg (not_or.mpr hzero), if_neg hlt]
      have hneedq : (0:ℚ) < ((needMileageOf team : ℤ) : ℚ) := by
        have h2 : (0:ℤ) < needMileageOf team := by
          simp only [needMileageOf]
          linarith
        exact_mod_cast h2
      have hP : 0 ≤ percentOfCardsRemaining s (validMileageCards env.cat team) *
          ((unseenTotalMileage env.cat s team : ℚ) / (needMileageOf team : ℚ)) *
          teamMovesLeft gs team * remedyCoeff env s gs team * goCoeff env s gs team := by
        have a1 := percentOfCardsRemaining_nonneg s (validMileageCards env.cat team)
          (fun c _ => hcnt c)
        have a2 : (0:ℚ) ≤ ((unseenTotalMileage env.cat s team : ℤ) : ℚ) := by
          exact_mod_cast unseenTotalMileage_nonneg env.cat s team hcnt hmil
        have a3 := teamMovesLeft_nonneg gs team hcl
        have a4 := remedyCoeff_nonneg env s gs team hcnt hcl
        have a5 := goCoeff_nonneg env s gs team hcnt hcl
        exact mul_nonneg (mul_nonneg (mul_nonneg (mul_nonneg a1
          (div_nonneg a2 hneedq.le)) a3) a4) a5
      exact ⟨hfirst, by rw [hval]; exact le_min (by norm_num) hP,
        by rw [hval]; exact min_le_left _ _,
        fun h => by rcases h with h | h
                    · exact absurd h hzero.1
                    · exact absurd h hzero.2,
        fun h => absurd h hlt, fun _ _ _ => hval⟩

/-- Concrete game state for the C8 witness: trip just started, 20 turns
of deck left, so the Monte Carlo mode is off. -/
def gsC8 : GameState :=
  { gsC9 with us := teamC6 }

/-- C8 witness: the analytic path instantiated at a concrete snapshot:
the forecaster takes the analytical branch and its result is in
[0,1]. -/
theorem chanceTeamWillCompleteTrip_analytic_spec_witness :
    chanceTeamWillCompleteTrip envW sW gsC8 teamW1 =
        some (chanceTeamWillCompleteTripAnalytic envW sW gsC8 teamW1) ∧
      0 ≤ chanceTeamWillCompleteTripAnalytic envW sW gsC8 teamW1 ∧
      chanceTeamWillCompleteTripAnalytic envW sW gsC8 teamW1 ≤ 1 := by
  have h := chanceTeamWillCompleteTrip_analytic_spec envW sW gsC8 teamW1
    (by norm_num [useMonteCarloSimulation, maxTripPctDone, deckExhaustionTurnsLeft, gsC8,
      gsC9, teamC6, teamW0, teamW1])
    (by intro c; simp only [sW]; split <;> norm_num)
    (by decide) (by decide) (by decide)
  exact ⟨h.1, h.2.1, h.2.2.1⟩

/-- A fallible comprehension over a list succeeds when it succeeds on
every element. -/
lemma mapOption_isSome {α β : Type} (f : α → Option β) :
    ∀ l : List α, (∀ a ∈ l, (f a).isSome = true) → (mapOption f l).isSome = true
  | [], _ => rfl
  | a :: l, h => by
    simp only [mapOption]
    rcases Option.isSome_iff_exists.mp (h a (List.mem_cons_self a l)) with ⟨b, hb⟩
    rcases Option.isSome_iff_exists.mp
      (mapOption_isSome f l (fun x hx => h x (List.mem_cons_of_mem a hx))) with ⟨bs, hbs⟩
    rw [hb, hbs]
    rfl

/-- Well-formedness of a snapshot (spec section 3: the decider's team
plus the opponent teams, addressable by team number): every team index
the engine iterates over resolves, either as the decider or through
teamNumberToTeam. -/
abbrev TeamsAddressable (gs : GameState) : Prop :=
  ∀ i < gs.opponents.length + 1, i = gs.us.number ∨ (teamNumberToTeam gs i).isSome = true

/-- A single Monte Carlo playout succeeds on an addressable snapshot. -/
lemma monteCarloOnePlayout_isSome (env : Env) (s : AIState) (gs : GameState) (k : ℕ)
    (hA : TeamsAddressable gs) : (monteCarloOnePlayout env s gs k).isSome = true := by
  simp only [monteCarloOnePlayout]
  rw [Option.isSome_map']
  apply mapOption_isSome
  intro i hi
  rw [Option.isSome_map']
  by_cases h2 : i = gs.us.number
  · rw [if_pos h2]
    rfl
  · rw [if_neg h2]
    rcases hA i (List.mem_range.mp hi) with h1 | h1
    · exact absurd h1 h2
    · exact h1

/-- The Monte Carlo simulation succeeds on an addressable snapshot. -/
lemma monteCarloMileageSimulation_isSome (env : Env) (s : AIState) (gs : GameState)
    (hA : TeamsAddressable gs) : (monteCarloMileageSimulation env s gs).isSome = true :=
  mapOption_isSome _ _ (fun k _ => monteCarloOnePlayout_isSome env s gs k hA)

/-- expectedTurnsLeft succeeds on an addressable snapshot. -/
lemma expectedTurnsLeft_isSome (env : Env) (s : AIState) (gs : GameState)
    (hA : TeamsAddressable gs) : (expectedTurnsLeft env s gs).isSome = true := by
  unfold expectedTurnsLeft
  split
  · rfl
  · rw [Option.isSome_map']
    exact monteCarloMileageSimulation_isSome env s gs hA

/-- chanceTeamWillCompleteTrip succeeds on an addressable snapshot. -/
lemma chanceTeamWillCompleteTrip_isSome (env : Env) (s : AIState) (gs : GameState)
    (team : Team) (hA : TeamsAddressable gs) :
    (chanceTeamWillCompleteTrip env s gs team).isSome = true := by
  unfold chanceTeamWillCompleteTrip
  split
  · rw [Option.isSome_map']
    exact monteCarloMileageSimulation_isSome env s gs hA
  · rfl

/-- cardValue succeeds on an addressable snapshot. -/
lemma cardValue_isSome (env : Env) (s : AIState) (gs : GameState) (card : ℕ) (cardIdx : ℕ)
    (cards : List (Option ℕ)) (hA : TeamsAddressable gs) :
    (cardValue env s gs card cardIdx cards).isSome = true := by
  simp only [cardValue]
  cases htype : env.cat.cardToType card with
  | MILEAGE =>
    dsimp only
    split_ifs <;> rfl
  | REMEDY =>
    dsimp only
    split
    · rfl
    · rw [Option.isSome_map']
      exact expectedTurnsLeft_isSome env s gs hA
  | SAFETY => rfl
  | ATTACK => rfl

/-- moveValue succeeds on an addressable snapshot whenever an attack
play's target resolves. -/
lemma moveValue_isSome (env : Env) (s : AIState) (gs : GameState) (move : Move)
    (discardIdx : ℕ) (discardCards : List (Option ℕ))
    (hA : TeamsAddressable gs)
    (hT : move.type = MoveType.PLAY → env.cat.cardToType move.card = CardType.ATTACK →
      (teamNumberToTeam gs move.target).isSome = true) :
    (moveValue env s gs move discardIdx discardCards).isSome = true := by
  simp only [moveValue]
  cases hmt : move.type with
  | PLAY =>
    cases htype : env.cat.cardToType move.card with
    | MILEAGE => split_ifs <;> rfl
    | REMEDY => split_ifs <;> rfl
    | SAFETY => rfl
    | ATTACK =>
      rcases Option.isSome_iff_exists.mp (hT hmt htype) with ⟨target, htgt⟩
      rw [htgt, Option.some_bind]
      dsimp only
      split_ifs <;>
        first
          | rfl
          | (rw [Option.isSome_map']
             exact chanceTeamWillCompleteTrip_isSome env s gs target hA)
  | DISCARD =>
    rw [Option.isSome_map']
    exact cardValue_isSome env s gs move.card discardIdx discardCards hA

/-- The moveValues dict computation succeeds on an addressable snapshot
with resolvable attack targets. -/
lemma moveValuesAssoc_isSome (env : Env) (s : AIState) (gs : GameState)
    (hA : TeamsAddressable gs)
    (hT : ∀ m ∈ gs.validMoves, m.type = MoveType.PLAY →
      env.cat.cardToType m.card = CardType.ATTACK →
      (teamNumberToTeam gs m.target).isSome = true) :
    (moveValuesAssoc env s gs).isSome = true := by
  unfold moveValuesAssoc
  apply mapOption_isSome
  rintro ⟨i, m⟩ hp
  rw [Option.isSome_map']
  have hmem : m ∈ gs.validMoves := by
    rw [List.enum_eq_zip_range] at hp
    exact (List.of_mem_zip hp).2
  exact moveValue_isSome env s gs m i (discardCardsOf gs.validMoves) hA (hT m hmem)

/-- The head of a sorted list is a member of the original list. -/
lemma head?_mergeSort_mem {α : Type} (l : List α) (le : α → α → Bool) (m : α)
    (h : (l.mergeSort le).head? = some m) : m ∈ l :=
  (List.mergeSort_perm l le).subset (List.mem_of_mem_head? h)

/-- Sorting a non-empty list yields a head. -/
lemma exists_head?_mergeSort {α : Type} (l : List α) (le : α → α → Bool) (hne : l ≠ []) :
    ∃ m, (l.mergeSort le).head? = some m := by
  cases hh : (l.mergeSort le).head? with
  | none =>
    have h0 : l.mergeSort le = [] := List.head?_eq_none_iff.mp hh
    have h1 : l.Perm [] := by
      have h2 := List.mergeSort_perm l le
      rw [h0] at h2
      exact h2.symm
    exact absurd h1.eq_nil hne
  | some m => exact ⟨m, rfl⟩

/-- C1: on a well-formed snapshot (non-empty valid-move list, teams
addressable by number, attack-play targets resolvable - the legality the
spec guarantees for rule-engine-supplied moves), makeMove returns a
move, and that move is an element of the snapshot's validMoves list. -/
theorem makeMove_mem_validMoves (env : Env) (s : AIState) (gs : GameState)
    (hne : gs.validMoves ≠ [])
    (hA : TeamsAddressable gs)
    (hT : ∀ m ∈ gs.validMoves, m.type = MoveType.PLAY →
      env.cat.cardToType m.card = CardType.ATTACK →
      (teamNumberToTeam gs m.target).isSome = true) :
    ∃ m, makeMove env s gs = some m ∧ m ∈ gs.validMoves := by
  rcases Option.isSome_iff_exists.mp (moveValuesAssoc_isSome env s gs hA hT) with ⟨assoc, hassoc⟩
  unfold makeMove
  rw [hassoc, Option.some_bind]
  obtain ⟨m, hm⟩ := exists_head?_mergeSort gs.validMoves
    (fun a b => decide
      ((((assoc.reverse).find? (fun q => q.1 == b)).map Prod.snd).getD 0 ≤
        (((assoc.reverse).find? (fun q => q.1 == a)).map Prod.snd).getD 0)) hne
  exact ⟨m, hm, head?_mergeSort_mem _ _ _ hm⟩

/-- Concrete snapshot for the C1 witness: two discard moves. -/
def gsC1 : GameState :=
  { gsC8 with validMoves := [Move.mk MoveType.DISCARD 1 0, Move.mk MoveType.DISCARD 0 0] }

/-- C1 witness: makeMove on the concrete snapshot returns some move of
its validMoves list. -/
theorem makeMove_mem_validMoves_witness :
    ∃ m, makeMove envW sW gsC1 = some m ∧ m ∈ gsC1.validMoves :=
  makeMove_mem_validMoves envW sW gsC1 (by decide) (by decide) (by decide)
